import Mathlib

/-!
Shallow embedding of the evrgb_combo synchronization core
(TriggerBuffer, EventVectorPool, and the Combo synchronization and
callback-dispatch loops), together with theorems settling the frozen
claims about it.

Conventions of the embedding:
* std::queue is modelled as a Lean List whose head is the queue front
  (push appends at the tail, pop removes the head).
* std::vector used as a stack (push_back / pop_back in EventVectorPool)
  is modelled as a List whose head is the vector back.
* cv::Mat images are opaque to the synchronization logic and are
  modelled by a Nat identifier.
* uint64 timestamps are modelled as Nat: the code only compares them and
  never does wrapping arithmetic on them.
* Functions returning bool plus an out-parameter are modelled as
  functions returning an Option or a product.
-/

namespace Evrgb

/-- Mirrors evrgb::TriggerSignal: a polarity-tagged hardware trigger pulse
(polarity 0 = exposure start, 1 = exposure end, timestamps in microseconds). -/
structure TriggerSignal where
  trigger_id : Int
  polarity : Int
  timestamp_us : Nat
deriving DecidableEq, Repr

/-- Mirrors evrgb::TriggerPair: one exposure window, either edge possibly absent. -/
structure TriggerPair where
  start_trigger : Option TriggerSignal := none
  end_trigger : Option TriggerSignal := none
deriving DecidableEq, Repr

/-- TriggerPair::empty – true iff both edges are absent. -/
def TriggerPair.isEmptyPair (p : TriggerPair) : Bool :=
  p.start_trigger.isNone && p.end_trigger.isNone

/-- State of evrgb::TriggerBuffer: the queue of reconciled pairs (head =
front), the configured capacity, and the pending (temporary) pair. -/
structure TriggerBuffer where
  trigger_pair_queue : List TriggerPair
  max_buffer_size : Nat
  temp_trigger_pair : TriggerPair
deriving DecidableEq, Repr

/-- Freshly constructed TriggerBuffer(max_buffer_size). -/
def TriggerBuffer.mk0 (cap : Nat) : TriggerBuffer :=
  ⟨[], cap, ⟨none, none⟩⟩

/-- TriggerBuffer::addTrigger, translated branch for branch from
src/sync/trigger_buffer.cpp lines 11-42.  Returns the bool result and the
updated buffer. -/
def TriggerBuffer.addTrigger (tb : TriggerBuffer) (trigger : TriggerSignal) :
    Bool × TriggerBuffer :=
  if tb.temp_trigger_pair.isEmptyPair then
    if trigger.polarity == 0 then
      (false, { tb with temp_trigger_pair := { start_trigger := some trigger, end_trigger := none } })
    else
      -- end trigger before start trigger: enqueue an end-only pair at once
      (true, { tb with trigger_pair_queue :=
        tb.trigger_pair_queue ++ [⟨none, some trigger⟩] })
  else if tb.max_buffer_size ≤ tb.trigger_pair_queue.length then
    -- buffer full: the new trigger is ignored
    (false, tb)
  else if trigger.polarity == 1 then
    -- complete the pending pair and enqueue it
    (true, { tb with
      trigger_pair_queue := tb.trigger_pair_queue ++
        [⟨tb.temp_trigger_pair.start_trigger, some trigger⟩],
      temp_trigger_pair := ⟨none, none⟩ })
  else
    -- second start while one is pending: flush the incomplete pair
    (true, { tb with
      trigger_pair_queue := tb.trigger_pair_queue ++
        [⟨tb.temp_trigger_pair.start_trigger, tb.temp_trigger_pair.end_trigger⟩],
      temp_trigger_pair := { start_trigger := some trigger, end_trigger := none } })

/-- TriggerBuffer::getOldestTrigger – pop-and-return the front pair;
none when the queue is empty. -/
def TriggerBuffer.getOldestTrigger (tb : TriggerBuffer) :
    Option TriggerPair × TriggerBuffer :=
  match tb.trigger_pair_queue with
  | [] => (none, tb)
  | p :: rest => (some p, { tb with trigger_pair_queue := rest })

/-- Feed a list of trigger pulses through addTrigger in order. -/
def TriggerBuffer.processAll (tb : TriggerBuffer) : List TriggerSignal → TriggerBuffer
  | [] => tb
  | t :: ts => ((tb.addTrigger t).2).processAll ts

/-- Mirrors dvsense::Event2D as used by the core: pixel coordinates,
polarity and a microsecond timestamp. -/
structure Event2D where
  x : Nat
  y : Nat
  pol : Nat
  timestamp : Nat
deriving DecidableEq, Repr

/-- State of evrgb::EventVectorPool.  The free list models the pool_
vector used as a stack: the list head is the vector back (push_back and
pop_back both act on the head).  A container is modelled by its contents;
capacity reservation only pre-sizes memory and does not change contents,
so createVector and the re-reserve in release leave the modelled value
unchanged. -/
structure EventVectorPool where
  pool : List (List Event2D)
  vector_capacity : Nat
deriving DecidableEq, Repr

/-- EventVectorPool(preallocated_count, vector_capacity): pre-warm with
that many empty containers. -/
def EventVectorPool.mk0 (preallocated_count vector_capacity : Nat) : EventVectorPool :=
  ⟨List.replicate preallocated_count [], vector_capacity⟩

/-- EventVectorPool::acquire – pop a container from the back of the free
list when available, else create a fresh (empty) one. -/
def EventVectorPool.acquire (p : EventVectorPool) : List Event2D × EventVectorPool :=
  match p.pool with
  | [] => ([], p)
  | v :: rest => (v, { p with pool := rest })

/-- EventVectorPool::release – clear the container and push it back onto
the free list (the null-pointer guard has no counterpart for a value). -/
def EventVectorPool.release (p : EventVectorPool) (_vec : List Event2D) : EventVectorPool :=
  { p with pool := [] :: p.pool }

/-- One acquire immediately followed by one release, with no other holder. -/
def EventVectorPool.cycle (p : EventVectorPool) : EventVectorPool :=
  ((p.acquire).2).release (p.acquire).1

/-- N acquire/release cycles in sequence. -/
def EventVectorPool.runCycles (p : EventVectorPool) : Nat → EventVectorPool
  | 0 => p
  | k + 1 => (p.cycle).runCycles k

/-- Mirrors evrgb::ImageWithIndex: a captured frame (image content opaque,
modelled by a Nat id) tagged with its monotonically increasing index. -/
structure ImageWithIndex where
  image : Nat
  index : Nat
deriving DecidableEq, Repr

/-- Mirrors evrgb::RgbImageWithTimestamp, the image part of a synchronized
sample as produced by Combo::synchronizeImageAndTrigger. -/
structure RgbImageWithTimestamp where
  image : Nat
  exposure_start_ts : Nat
  exposure_end_ts : Nat
  image_index : Nat
deriving DecidableEq, Repr

/-- Mirrors evrgb::Combo::SyncedFrameData: the queued unit handed to the
callback dispatch worker. -/
structure SyncedFrameData where
  image_data : RgbImageWithTimestamp
  events : List Event2D
deriving DecidableEq, Repr

/-- Combo::synchronizeImageAndTrigger (src/core/combo_threads.cpp lines
153-190), sequentialized: given the RGB frame queue (head = front) and the
trigger buffer, return the emitted sample (if any) together with the
updated queue and buffer.  The branch where getOldestTrigger fails after
a non-empty check cannot trigger in this sequential model but is kept
faithful to the source. -/
def synchronizeImageAndTrigger (rgb : List ImageWithIndex) (tb : TriggerBuffer) :
    Option RgbImageWithTimestamp × List ImageWithIndex × TriggerBuffer :=
  match rgb with
  | [] => (none, rgb, tb)
  | img :: rest =>
    if tb.trigger_pair_queue.isEmpty then
      (none, img :: rest, tb)
    else
      match tb.getOldestTrigger with
      | (none, tb1) => (none, rest ++ [img], tb1)
      | (some pair, tb1) =>
        match pair.end_trigger with
        | some endTrig =>
          let startTs :=
            match pair.start_trigger with
            | some s => s.timestamp_us
            | none => endTrig.timestamp_us
          (some ⟨img.image, startTs, endTrig.timestamp_us, img.index⟩, rest, tb1)
        | none =>
          -- no end trigger: push the frame back (std::queue push = at the back)
          (none, rest ++ [img], tb1)

/-- Iterate the synchronization step k times, collecting all emitted
samples in order. -/
def runSync : Nat → List ImageWithIndex → TriggerBuffer →
    List RgbImageWithTimestamp × List ImageWithIndex × TriggerBuffer
  | 0, rgb, tb => ([], rgb, tb)
  | k + 1, rgb, tb =>
    match synchronizeImageAndTrigger rgb tb with
    | (some r, rgb1, tb1) =>
      let (rs, rgb2, tb2) := runSync k rgb1 tb1
      (r :: rs, rgb2, tb2)
    | (none, rgb1, tb1) => runSync k rgb1 tb1

/-- The event-slice extraction of Combo::syncLoop (combo_threads.cpp lines
126-134): std::upper_bound over the timestamp-sorted accumulator finds the
first event with timestamp strictly above exposure_end_ts; the prefix
before it is moved into the frame container and erased from the
accumulator.  On a sorted buffer that split is exactly the takeWhile /
dropWhile split at timestamp ≤ exposure_end_ts (the emptiness guard around
insert and erase is a no-op refinement). -/
def extractEvents (exposure_end_ts : Nat) (buf : List Event2D) :
    List Event2D × List Event2D :=
  (buf.takeWhile (fun e => e.timestamp ≤ exposure_end_ts),
   buf.dropWhile (fun e => e.timestamp ≤ exposure_end_ts))

/-- The window lower bound computed in Combo::syncLoop line 123:
last_frame_end_ts_ when a previous frame was processed (encoded, as in the
source, by a positive value), else this frame's exposure start. -/
def windowLowerBound (last_frame_end_ts exposure_start_ts : Nat) : Nat :=
  if 0 < last_frame_end_ts then last_frame_end_ts else exposure_start_ts

/-- The mutable state of Combo touched by one syncLoop iteration. -/
structure SyncState where
  rgb_image_buffer : List ImageWithIndex
  trigger_buffer : TriggerBuffer
  event_buffer : List Event2D
  last_frame_end_ts : Nat
  callback_queue : List SyncedFrameData
  event_vector_pool : EventVectorPool
deriving DecidableEq, Repr

/-- One iteration of Combo::syncLoop (combo_threads.cpp lines 111-148),
sequentialized.  hasSyncedCallback models whether synced_callback_ is set.
Note that the lower bound start_ts computed at line 123 is never used by
the extraction: the slice is the whole accumulator prefix with timestamp
≤ exposure_end_ts. -/
def syncLoopIter (hasSyncedCallback : Bool) (s : SyncState) : SyncState :=
  match synchronizeImageAndTrigger s.rgb_image_buffer s.trigger_buffer with
  | (none, rgb1, tb1) =>
    { s with rgb_image_buffer := rgb1, trigger_buffer := tb1 }
  | (some res, rgb1, tb1) =>
    if hasSyncedCallback then
      let (frame_events0, pool1) := s.event_vector_pool.acquire
      let (slice, buf1) := extractEvents res.exposure_end_ts s.event_buffer
      { rgb_image_buffer := rgb1
        trigger_buffer := tb1
        event_buffer := buf1
        last_frame_end_ts := res.exposure_end_ts
        callback_queue := s.callback_queue ++ [⟨res, frame_events0 ++ slice⟩]
        event_vector_pool := pool1 }
    else
      { s with rgb_image_buffer := rgb1, trigger_buffer := tb1 }

/-- The callback worker loop after the stop flag has been cleared
(combo_threads.cpp lines 236-267): it keeps dequeuing, delivering to the
recorder or user callback, and releasing each container, and exits only
once the queue is empty.  Returns the list of samples delivered in order
and the resulting pool. -/
def callbackLoopDrain (pool : EventVectorPool) :
    List SyncedFrameData → List SyncedFrameData × EventVectorPool
  | [] => ([], pool)
  | d :: rest =>
    (d :: (callbackLoopDrain (pool.release d.events) rest).1,
     (callbackLoopDrain (pool.release d.events) rest).2)

/-- The post-join drain of Combo::stopCallbackThread (combo_threads.cpp
lines 222-227): discard every remaining queued sample, releasing its
container. -/
def stopDrain (pool : EventVectorPool) (queue : List SyncedFrameData) : EventVectorPool :=
  queue.foldl (fun p item => p.release item.events) pool

/-- The whole shutdown sequence seen by the dispatch queue: the worker
loop finishes draining the queue (delivering), the thread is joined, then
stopCallbackThread drains whatever is left (here nothing).  Returns the
delivered samples and the final pool. -/
def stopCallbackShutdown (pool : EventVectorPool) (queue : List SyncedFrameData) :
    List SyncedFrameData × EventVectorPool :=
  let (delivered, pool1) := callbackLoopDrain pool queue
  (delivered, stopDrain pool1 [])

/-- Did every pulse of the list arrive while either a start was already
pending or the pulse itself is a start?  (Excludes the end-without-start
anomaly, which bypasses the capacity check in addTrigger.) -/
def noIdleEnd (tb : TriggerBuffer) : List TriggerSignal → Bool
  | [] => true
  | t :: ts =>
    (!(tb.temp_trigger_pair.isEmptyPair) || (t.polarity == 0)) &&
      noIdleEnd (tb.addTrigger t).2 ts

theorem addTrigger_max_eq (tb : TriggerBuffer) (t : TriggerSignal) :
    ((tb.addTrigger t).2).max_buffer_size = tb.max_buffer_size := by
  unfold TriggerBuffer.addTrigger
  split <;> [skip; split] <;> simp <;> split <;> simp

theorem addTrigger_len_le (tb : TriggerBuffer) (t : TriggerSignal)
    (hok : tb.temp_trigger_pair.isEmptyPair = false ∨ t.polarity = 0)
    (hlen : tb.trigger_pair_queue.length ≤ tb.max_buffer_size) :
    ((tb.addTrigger t).2).trigger_pair_queue.length ≤ tb.max_buffer_size := by
  unfold TriggerBuffer.addTrigger
  rcases hok with hok | hok
  · rw [hok]
    simp only [Bool.false_eq_true, if_false]
    split
    · simpa using hlen
    · split <;> simp <;> omega
  · split
    · simp [hok, hlen]
    · split
      · simpa using hlen
      · split <;> simp <;> omega

theorem processAll_max_eq (sigs : List TriggerSignal) (tb : TriggerBuffer) :
    (tb.processAll sigs).max_buffer_size = tb.max_buffer_size := by
  induction sigs generalizing tb with
  | nil => simp [TriggerBuffer.processAll]
  | cons t ts ih => simp [TriggerBuffer.processAll, ih, addTrigger_max_eq]

theorem processAll_len_le (sigs : List TriggerSignal) (tb : TriggerBuffer)
    (hno : noIdleEnd tb sigs = true)
    (hlen : tb.trigger_pair_queue.length ≤ tb.max_buffer_size) :
    (tb.processAll sigs).trigger_pair_queue.length ≤ (tb.processAll sigs).max_buffer_size := by
  induction sigs generalizing tb with
  | nil => simpa [TriggerBuffer.processAll] using hlen
  | cons t ts ih =>
    simp only [noIdleEnd, Bool.and_eq_true, Bool.or_eq_true, Bool.not_eq_eq_eq_not,
      Bool.not_true, beq_iff_eq] at hno
    refine ih (tb.addTrigger t).2 hno.2 ?_
    rw [addTrigger_max_eq]
    exact addTrigger_len_le tb t (by rcases hno.1 with h | h; exact Or.inl h; exact Or.inr h) hlen

/-- Claim C4 counterexample: with capacity 1, two end-without-start pulses
are both enqueued (the capacity check is bypassed when no start is
pending), so the queue holds 2 pairs, exceeding the configured bound. -/
theorem trigger_capacity_counterexample :
    ((((TriggerBuffer.mk0 1).addTrigger ⟨0, 1, 50⟩).2.addTrigger
        ⟨0, 1, 60⟩).2).trigger_pair_queue.length = 2 ∧ 1 < 2 := by
  decide

/-- Claim C4 (amended): for input sequences in which no end pulse arrives
while no start is pending, the queue never exceeds the configured
capacity; and whenever a start is pending and the queue is at or over
capacity, addTrigger rejects the new pulse — it returns false and leaves
the buffer unchanged, retaining the oldest pairs rather than dropping
them. -/
theorem trigger_capacity_amended (cap : Nat) (sigs : List TriggerSignal)
    (tb : TriggerBuffer) (t : TriggerSignal)
    (hno : noIdleEnd (TriggerBuffer.mk0 cap) sigs = true)
    (hpend : tb.temp_trigger_pair.isEmptyPair = false)
    (hfull : tb.max_buffer_size ≤ tb.trigger_pair_queue.length) :
    ((TriggerBuffer.mk0 cap).processAll sigs).trigger_pair_queue.length ≤ cap ∧
    tb.addTrigger t = (false, tb) := by
  constructor
  · have h := processAll_len_le sigs (TriggerBuffer.mk0 cap) hno (by simp [TriggerBuffer.mk0])
    have hm : ((TriggerBuffer.mk0 cap).processAll sigs).max_buffer_size = cap := by
      rw [processAll_max_eq]
      simp [TriggerBuffer.mk0]
    rw [hm] at h
    exact h
  · unfold TriggerBuffer.addTrigger
    simp [hpend, Nat.not_lt.mpr hfull, hfull]

/-- Claim C4 amended witness at capacity 1. -/
theorem trigger_capacity_amended_witness :
    noIdleEnd (TriggerBuffer.mk0 1) [⟨0, 0, 10⟩, ⟨0, 1, 20⟩, ⟨0, 0, 30⟩, ⟨0, 1, 40⟩] = true ∧
    (⟨[⟨some ⟨0, 0, 10⟩, some ⟨0, 1, 20⟩⟩], 1, ⟨some ⟨0, 0, 30⟩, none⟩⟩ :
        TriggerBuffer).temp_trigger_pair.isEmptyPair = false ∧
    (⟨[⟨some ⟨0, 0, 10⟩, some ⟨0, 1, 20⟩⟩], 1, ⟨some ⟨0, 0, 30⟩, none⟩⟩ :
        TriggerBuffer).max_buffer_size ≤ 1 ∧
    ((TriggerBuffer.mk0 1).processAll
        [⟨0, 0, 10⟩, ⟨0, 1, 20⟩, ⟨0, 0, 30⟩, ⟨0, 1, 40⟩]).trigger_pair_queue.length ≤ 1 ∧
    (⟨[⟨some ⟨0, 0, 10⟩, some ⟨0, 1, 20⟩⟩], 1, ⟨some ⟨0, 0, 30⟩, none⟩⟩ :
        TriggerBuffer).addTrigger ⟨0, 1, 40⟩ =
      (false, ⟨[⟨some ⟨0, 0, 10⟩, some ⟨0, 1, 20⟩⟩], 1, ⟨some ⟨0, 0, 30⟩, none⟩⟩) := by
  have h := trigger_capacity_amended 1 [⟨0, 0, 10⟩, ⟨0, 1, 20⟩, ⟨0, 0, 30⟩, ⟨0, 1, 40⟩]
    ⟨[⟨some ⟨0, 0, 10⟩, some ⟨0, 1, 20⟩⟩], 1, ⟨some ⟨0, 0, 30⟩, none⟩⟩ ⟨0, 1, 40⟩
    (by decide) (by decide) (by decide)
  exact ⟨by decide, by decide, by decide, h.1, h.2⟩

/-- Claim C5 counterexample: with two queued frames and a trigger pair
missing its end edge, the popped frame is re-enqueued at the BACK of the
frame queue (std::queue::push), so the next frame popped is the other
frame, not the same one — frame order is rotated, not preserved. -/
theorem frame_requeue_counterexample :
    (synchronizeImageAndTrigger [⟨7, 0⟩, ⟨8, 1⟩]
        ⟨[⟨some ⟨0, 0, 10⟩, none⟩], 100, ⟨none, none⟩⟩).1 = none ∧
    (synchronizeImageAndTrigger [⟨7, 0⟩, ⟨8, 1⟩]
        ⟨[⟨some ⟨0, 0, 10⟩, none⟩], 100, ⟨none, none⟩⟩).2.1 = [⟨8, 1⟩, ⟨7, 0⟩] ∧
    ([⟨8, 1⟩, ⟨7, 0⟩] : List ImageWithIndex).head? ≠ some ⟨7, 0⟩ := by
  decide

/-- Claim C5 (amended): when the popped trigger pair has no end edge, the
step emits no sample and the popped frame is pushed back to the BACK of
the frame queue, so it is not lost; it is the next frame popped only when
no other frame is queued.  (The incomplete trigger pair itself stays
popped.) -/
theorem frame_requeued_to_back (img : ImageWithIndex) (rest : List ImageWithIndex)
    (tb : TriggerBuffer) (pair : TriggerPair) (qrest : List TriggerPair)
    (hq : tb.trigger_pair_queue = pair :: qrest) (hend : pair.end_trigger = none) :
    synchronizeImageAndTrigger (img :: rest) tb =
      (none, rest ++ [img], { tb with trigger_pair_queue := qrest }) ∧
    img ∈ rest ++ [img] ∧
    (rest = [] → rest ++ [img] = [img]) := by
  refine ⟨?_, by simp, by intro h; simp [h]⟩
  unfold synchronizeImageAndTrigger TriggerBuffer.getOldestTrigger
  simp [hq, hend]

/-- Claim C5 amended witness. -/
theorem frame_requeued_to_back_witness :
    (⟨[⟨some ⟨0, 0, 10⟩, none⟩], 100, ⟨none, none⟩⟩ :
        TriggerBuffer).trigger_pair_queue = ⟨some ⟨0, 0, 10⟩, none⟩ :: [] ∧
    (⟨some ⟨0, 0, 10⟩, none⟩ : TriggerPair).end_trigger = none ∧
    synchronizeImageAndTrigger [⟨7, 0⟩]
        ⟨[⟨some ⟨0, 0, 10⟩, none⟩], 100, ⟨none, none⟩⟩ =
      (none, [] ++ [⟨7, 0⟩], ⟨[], 100, ⟨none, none⟩⟩) ∧
    (⟨7, 0⟩ : ImageWithIndex) ∈ [] ++ [(⟨7, 0⟩ : ImageWithIndex)] ∧
    (([] : List ImageWithIndex) = [] → [] ++ [(⟨7, 0⟩ : ImageWithIndex)] = [⟨7, 0⟩]) := by
  have h := frame_requeued_to_back ⟨7, 0⟩ [] ⟨[⟨some ⟨0, 0, 10⟩, none⟩], 100, ⟨none, none⟩⟩
    ⟨some ⟨0, 0, 10⟩, none⟩ [] (by decide) (by decide)
  exact ⟨by decide, by decide, h.1, h.2.1, h.2.2⟩

/-- Claim C6: from an idle buffer, a start pulse (id 1, ts 100) returns
false and enqueues nothing; the matching end pulse (ts 200) returns true;
getOldestTrigger then yields the completed pair (100, 200). -/
theorem trigger_reconciliation_basic (cap : Nat) (hcap : 1 ≤ cap) :
    ((TriggerBuffer.mk0 cap).addTrigger ⟨1, 0, 100⟩).1 = false ∧
    ((TriggerBuffer.mk0 cap).addTrigger ⟨1, 0, 100⟩).2.trigger_pair_queue = [] ∧
    (((TriggerBuffer.mk0 cap).addTrigger ⟨1, 0, 100⟩).2.addTrigger ⟨1, 1, 200⟩).1 = true ∧
    ((((TriggerBuffer.mk0 cap).addTrigger ⟨1, 0, 100⟩).2.addTrigger
        ⟨1, 1, 200⟩).2.getOldestTrigger).1 =
      some ⟨some ⟨1, 0, 100⟩, some ⟨1, 1, 200⟩⟩ := by
  have h0 : ¬ (cap ≤ 0) := by omega
  simp [TriggerBuffer.mk0, TriggerBuffer.addTrigger, TriggerPair.isEmptyPair,
    TriggerBuffer.getOldestTrigger, h0]

/-- Claim C6 witness at the default capacity 100. -/
theorem trigger_reconciliation_basic_witness :
    1 ≤ 100 ∧
    ((TriggerBuffer.mk0 100).addTrigger ⟨1, 0, 100⟩).1 = false ∧
    ((TriggerBuffer.mk0 100).addTrigger ⟨1, 0, 100⟩).2.trigger_pair_queue = [] ∧
    (((TriggerBuffer.mk0 100).addTrigger ⟨1, 0, 100⟩).2.addTrigger ⟨1, 1, 200⟩).1 = true ∧
    ((((TriggerBuffer.mk0 100).addTrigger ⟨1, 0, 100⟩).2.addTrigger
        ⟨1, 1, 200⟩).2.getOldestTrigger).1 =
      some ⟨some ⟨1, 0, 100⟩, some ⟨1, 1, 200⟩⟩ := by
  have h := trigger_reconciliation_basic 100 (by decide)
  exact ⟨by decide, h.1, h.2.1, h.2.2.1, h.2.2.2⟩

/-- Claim C7: both anomalies flush half pairs with addTrigger returning
true.  An end with no pending start is enqueued at once as an end-only
pair; a second start flushes the pending start as a start-only pair and
the subsequent end completes the second start, giving exactly the pairs
(10, none) then (20, 30). -/
theorem trigger_anomaly_half_pairs (cap : Nat) (hcap : 2 ≤ cap) :
    ((TriggerBuffer.mk0 cap).addTrigger ⟨0, 1, 50⟩).1 = true ∧
    (((TriggerBuffer.mk0 cap).addTrigger ⟨0, 1, 50⟩).2.getOldestTrigger).1 =
      some ⟨none, some ⟨0, 1, 50⟩⟩ ∧
    ((TriggerBuffer.mk0 cap).addTrigger ⟨0, 0, 10⟩).1 = false ∧
    (((TriggerBuffer.mk0 cap).addTrigger ⟨0, 0, 10⟩).2.addTrigger ⟨0, 0, 20⟩).1 = true ∧
    ((((TriggerBuffer.mk0 cap).addTrigger ⟨0, 0, 10⟩).2.addTrigger
        ⟨0, 0, 20⟩).2.addTrigger ⟨0, 1, 30⟩).1 = true ∧
    ((((TriggerBuffer.mk0 cap).addTrigger ⟨0, 0, 10⟩).2.addTrigger
        ⟨0, 0, 20⟩).2.addTrigger ⟨0, 1, 30⟩).2.trigger_pair_queue =
      [⟨some ⟨0, 0, 10⟩, none⟩, ⟨some ⟨0, 0, 20⟩, some ⟨0, 1, 30⟩⟩] := by
  have h0 : ¬ (cap ≤ 0) := by omega
  have h1 : ¬ (cap ≤ 1) := by omega
  simp [TriggerBuffer.mk0, TriggerBuffer.addTrigger, TriggerPair.isEmptyPair,
    TriggerBuffer.getOldestTrigger, h0, h1]

/-- Claim C7 witness at the default capacity 100. -/
theorem trigger_anomaly_half_pairs_witness :
    2 ≤ 100 ∧
    ((TriggerBuffer.mk0 100).addTrigger ⟨0, 1, 50⟩).1 = true ∧
    (((TriggerBuffer.mk0 100).addTrigger ⟨0, 1, 50⟩).2.getOldestTrigger).1 =
      some ⟨none, some ⟨0, 1, 50⟩⟩ ∧
    ((((TriggerBuffer.mk0 100).addTrigger ⟨0, 0, 10⟩).2.addTrigger
        ⟨0, 0, 20⟩).2.addTrigger ⟨0, 1, 30⟩).2.trigger_pair_queue =
      [⟨some ⟨0, 0, 10⟩, none⟩, ⟨some ⟨0, 0, 20⟩, some ⟨0, 1, 30⟩⟩] := by
  have h := trigger_anomaly_half_pairs 100 (by decide)
  exact ⟨by decide, h.1, h.2.1, h.2.2.2.2.2⟩

/-- Claim C3, evaluated at the failing input: first processed frame
(last_frame_end_ts = 0) with exposure window 100..200 and an accumulator
holding events at timestamps 50 and 150.  The window lower bound computed
by the code is 100, yet the emitted slice contains the stale event at
timestamp 50 < 100: the bound (start_ts, line 123 of combo_threads.cpp)
is computed but never applied by the extraction, which takes the whole
accumulator prefix with timestamp ≤ exposure_end_ts. -/
theorem first_frame_stale_events :
    (syncLoopIter true
        ⟨[⟨7, 0⟩], ⟨[⟨some ⟨1, 0, 100⟩, some ⟨1, 1, 200⟩⟩], 100, ⟨none, none⟩⟩,
         [⟨0, 0, 0, 50⟩, ⟨0, 0, 0, 150⟩], 0, [], ⟨[], 0⟩⟩).callback_queue =
      [⟨⟨7, 100, 200, 0⟩, [⟨0, 0, 0, 50⟩, ⟨0, 0, 0, 150⟩]⟩] ∧
    windowLowerBound 0 100 = 100 ∧ (50 : Nat) < 100 := by
  decide

/-- Claim C8 counterexample: with the pre-warm count 0 (the constructor
default), a single acquire/release round leaves one container in the free
list — the free-list size exceeds the pre-warm configuration. -/
theorem pool_prewarm_zero_counterexample :
    ((EventVectorPool.mk0 0 16).runCycles 1).pool.length = 1 ∧ 0 < 1 := by
  decide

theorem acquire_len_le (p : EventVectorPool) :
    (p.acquire).2.pool.length ≤ p.pool.length := by
  cases hp : p.pool <;> simp [EventVectorPool.acquire, hp]

theorem cycle_len (p : EventVectorPool) :
    (p.cycle).pool.length = max 1 p.pool.length := by
  cases hp : p.pool with
  | nil => simp [EventVectorPool.cycle, EventVectorPool.acquire, EventVectorPool.release, hp]
  | cons v rest =>
    simp only [EventVectorPool.cycle, EventVectorPool.acquire, EventVectorPool.release, hp,
      List.length_cons]
    omega

theorem cycle_invariant (m : Nat) (p : EventVectorPool)
    (hlen : p.pool.length ≤ max m 1)
    (hmem : ∀ v ∈ p.pool, v = ([] : List Event2D)) :
    (p.cycle).pool.length ≤ max m 1 ∧
      ∀ v ∈ (p.cycle).pool, v = ([] : List Event2D) := by
  constructor
  · rw [cycle_len]
    omega
  · cases hp : p.pool with
    | nil =>
      simp [EventVectorPool.cycle, EventVectorPool.acquire, EventVectorPool.release, hp]
    | cons v rest =>
      simp only [EventVectorPool.cycle, EventVectorPool.acquire, EventVectorPool.release, hp]
      intro w hw
      rcases List.mem_cons.mp hw with h | h
      · exact h
      · exact hmem w (by rw [hp]; exact List.mem_cons_of_mem v h)

theorem runCycles_invariant (m k : Nat) (p : EventVectorPool)
    (hlen : p.pool.length ≤ max m 1)
    (hmem : ∀ v ∈ p.pool, v = ([] : List Event2D)) :
    (p.runCycles k).pool.length ≤ max m 1 ∧
      ∀ v ∈ (p.runCycles k).pool, v = ([] : List Event2D) := by
  induction k generalizing p with
  | zero => exact ⟨hlen, hmem⟩
  | succ k ih =>
    have h := cycle_invariant m p hlen hmem
    exact ih p.cycle h.1 h.2

/-- Claim C8 (amended): over any number of acquire/release cycles with no
concurrent holders, the free-list size of a pool pre-warmed with n
containers never exceeds max n 1 (it exceeds the pre-warm count only when
that count is 0, and then by exactly one), every container in the free
list has size zero, and the mid-cycle state right after an acquire is no
larger. -/
theorem pool_cycle_bound (n cap k : Nat) :
    ((EventVectorPool.mk0 n cap).runCycles k).pool.length ≤ max n 1 ∧
    (∀ v ∈ ((EventVectorPool.mk0 n cap).runCycles k).pool, v = ([] : List Event2D)) ∧
    ((((EventVectorPool.mk0 n cap).runCycles k).acquire).2).pool.length ≤ max n 1 := by
  have h := runCycles_invariant n k (EventVectorPool.mk0 n cap)
    (by simp [EventVectorPool.mk0, Nat.le_max_left])
    (by simp [EventVectorPool.mk0])
  exact ⟨h.1, h.2, le_trans (acquire_len_le _) h.1⟩

/-- Claim C8 amended witness at pre-warm 2, one cycle. -/
theorem pool_cycle_bound_witness :
    ((EventVectorPool.mk0 2 16).runCycles 1).pool.length ≤ max 2 1 ∧
    (∀ v ∈ ((EventVectorPool.mk0 2 16).runCycles 1).pool, v = ([] : List Event2D)) ∧
    ((((EventVectorPool.mk0 2 16).runCycles 1).acquire).2).pool.length ≤ max 2 1 :=
  pool_cycle_bound 2 16 1

/-- Claim C9 counterexample: with one sample still queued at shutdown, the
callback worker loop delivers it (the loop exits only when the stop flag
is set AND the queue is empty, and each dequeued sample is handed to the
recorder and user callback) — the delivered list equals the queue instead
of being empty as the claim requires. -/
theorem shutdown_discard_counterexample :
    (callbackLoopDrain ⟨[], 0⟩ [⟨⟨7, 100, 200, 0⟩, [⟨0, 0, 0, 150⟩]⟩]).1 =
      [⟨⟨7, 100, 200, 0⟩, [⟨0, 0, 0, 150⟩]⟩] ∧
    ([⟨⟨7, 100, 200, 0⟩, [⟨0, 0, 0, 150⟩]⟩] : List SyncedFrameData) ≠ [] := by
  decide

theorem callbackLoopDrain_spec (queue : List SyncedFrameData) (pool : EventVectorPool) :
    (callbackLoopDrain pool queue).1 = queue ∧
    (callbackLoopDrain pool queue).2.pool =
      List.replicate queue.length ([] : List Event2D) ++ pool.pool ∧
    (callbackLoopDrain pool queue).2.vector_capacity = pool.vector_capacity := by
  induction queue generalizing pool with
  | nil => simp [callbackLoopDrain]
  | cons d rest ih =>
    have h := ih (pool.release d.events)
    simp only [EventVectorPool.release] at h
    refine ⟨?_, ?_, ?_⟩
    · simp only [callbackLoopDrain, EventVectorPool.release, h.1]
    · simp only [callbackLoopDrain, EventVectorPool.release, h.2.1, List.length_cons,
        List.replicate_succ', List.append_assoc, List.singleton_append]
    · simp only [callbackLoopDrain, EventVectorPool.release, h.2.2]

/-- Claim C9 (amended): on shutdown every sample still in the dispatch
queue is DELIVERED by the worker before it exits (the loop only breaks
once the queue is empty), its pooled container released back to the pool
either by the delivery path or by the post-join drain; the queue ends
empty and the pool gains exactly one cleared container per queued sample,
so no pooled container is leaked. -/
theorem shutdown_release_no_leak (queue : List SyncedFrameData) (pool : EventVectorPool) :
    (stopCallbackShutdown pool queue).1 = queue ∧
    (stopCallbackShutdown pool queue).2.pool =
      List.replicate queue.length ([] : List Event2D) ++ pool.pool := by
  have h := callbackLoopDrain_spec queue pool
  unfold stopCallbackShutdown stopDrain
  exact ⟨by simp [h.1], by simp [h.2.1]⟩

theorem sync_some_shape (rgb : List ImageWithIndex) (tb : TriggerBuffer)
    (res : RgbImageWithTimestamp) (rgb1 : List ImageWithIndex) (tb1 : TriggerBuffer)
    (h : synchronizeImageAndTrigger rgb tb = (some res, rgb1, tb1)) :
    rgb1 = rgb.tail ∧ tb1.trigger_pair_queue = tb.trigger_pair_queue.tail := by
  cases rgb with
  | nil => simp [synchronizeImageAndTrigger] at h
  | cons img rest =>
    cases hq : tb.trigger_pair_queue with
    | nil => simp [synchronizeImageAndTrigger, hq] at h
    | cons pair qrest =>
      cases hend : pair.end_trigger with
      | none =>
        simp [synchronizeImageAndTrigger, TriggerBuffer.getOldestTrigger, hq, hend] at h
      | some e =>
        simp only [synchronizeImageAndTrigger, TriggerBuffer.getOldestTrigger, hq, hend,
          List.isEmpty_cons, Bool.false_eq_true, if_false, Prod.mk.injEq] at h
        refine ⟨h.2.1.symm, ?_⟩
        rw [← h.2.2]
        simp

/-- Claim C10: when no synchronized-sample callback is registered, a sync
iteration that finds a frame and a completed pair still pops both, but
leaves the event accumulator, the previous-frame end timestamp, the
dispatch queue (hence the recorder input) and the pool untouched. -/
theorem sync_without_callback (s : SyncState) (res : RgbImageWithTimestamp)
    (rgb1 : List ImageWithIndex) (tb1 : TriggerBuffer)
    (h : synchronizeImageAndTrigger s.rgb_image_buffer s.trigger_buffer = (some res, rgb1, tb1)) :
    syncLoopIter false s =
      { s with rgb_image_buffer := rgb1, trigger_buffer := tb1 } ∧
    rgb1 = s.rgb_image_buffer.tail ∧
    tb1.trigger_pair_queue = s.trigger_buffer.trigger_pair_queue.tail := by
  have hs := sync_some_shape s.rgb_image_buffer s.trigger_buffer res rgb1 tb1 h
  exact ⟨by simp [syncLoopIter, h], hs.1, hs.2⟩

/-- Claim C10 witness: one frame, one completed pair, no callback — both
are popped, everything else (including a non-empty accumulator and a
previously set end timestamp) is untouched. -/
theorem sync_without_callback_witness :
    synchronizeImageAndTrigger [⟨7, 0⟩]
        ⟨[⟨some ⟨1, 0, 100⟩, some ⟨1, 1, 200⟩⟩], 100, ⟨none, none⟩⟩ =
      (some ⟨7, 100, 200, 0⟩, [], ⟨[], 100, ⟨none, none⟩⟩) ∧
    syncLoopIter false
        ⟨[⟨7, 0⟩], ⟨[⟨some ⟨1, 0, 100⟩, some ⟨1, 1, 200⟩⟩], 100, ⟨none, none⟩⟩,
         [⟨0, 0, 0, 50⟩], 42, [], ⟨[[]], 16⟩⟩ =
      ⟨[], ⟨[], 100, ⟨none, none⟩⟩, [⟨0, 0, 0, 50⟩], 42, [], ⟨[[]], 16⟩⟩ ∧
    ([] : List ImageWithIndex) = [(⟨7, 0⟩ : ImageWithIndex)].tail ∧
    (⟨[], 100, ⟨none, none⟩⟩ : TriggerBuffer).trigger_pair_queue =
      ([⟨some ⟨1, 0, 100⟩, some ⟨1, 1, 200⟩⟩] : List TriggerPair).tail := by
  have h := sync_without_callback
    ⟨[⟨7, 0⟩], ⟨[⟨some ⟨1, 0, 100⟩, some ⟨1, 1, 200⟩⟩], 100, ⟨none, none⟩⟩,
     [⟨0, 0, 0, 50⟩], 42, [], ⟨[[]], 16⟩⟩
    ⟨7, 100, 200, 0⟩ [] ⟨[], 100, ⟨none, none⟩⟩ (by decide)
  exact ⟨by decide, h.1, h.2.1, h.2.2⟩

/-- The TriggerBuffer queue contents after N completed pairs have been
enqueued FIFO: each holds both edges. -/
def completedQueue (pairs : List (TriggerSignal × TriggerSignal)) : List TriggerPair :=
  pairs.map (fun q => ⟨some q.1, some q.2⟩)

/-- The expected synchronized output: the i-th frame paired with the i-th
trigger pair, its exposure window taken from that pair. -/
def expectedSamples (frames : List ImageWithIndex)
    (pairs : List (TriggerSignal × TriggerSignal)) : List RgbImageWithTimestamp :=
  List.zipWith (fun f q => ⟨f.image, q.1.timestamp_us, q.2.timestamp_us, f.index⟩) frames pairs

theorem runSync_nil (k : Nat) (tb : TriggerBuffer) :
    runSync k [] tb = ([], [], tb) := by
  induction k with
  | zero => rfl
  | succ k ih => simp [runSync, synchronizeImageAndTrigger, ih]

theorem sync_step_complete (img : ImageWithIndex) (rest : List ImageWithIndex)
    (s e : TriggerSignal) (qrest : List TriggerPair) (cap : Nat) (tmp : TriggerPair) :
    synchronizeImageAndTrigger (img :: rest) ⟨⟨some s, some e⟩ :: qrest, cap, tmp⟩ =
      (some ⟨img.image, s.timestamp_us, e.timestamp_us, img.index⟩, rest,
        ⟨qrest, cap, tmp⟩) := by
  simp [synchronizeImageAndTrigger, TriggerBuffer.getOldestTrigger]

theorem runSync_complete_eq (frames : List ImageWithIndex)
    (pairs : List (TriggerSignal × TriggerSignal)) (cap k : Nat) (tmp : TriggerPair)
    (hlen : frames.length = pairs.length) (hk : pairs.length ≤ k) :
    (runSync k frames ⟨completedQueue pairs, cap, tmp⟩).1 =
      expectedSamples frames pairs := by
  induction frames generalizing pairs k with
  | nil =>
    have hp : pairs = [] := List.length_eq_zero.mp hlen.symm
    subst hp
    simp [runSync_nil, expectedSamples]
  | cons f fr ih =>
    cases pairs with
    | nil => simp at hlen
    | cons q qr =>
      cases k with
      | zero => simp at hk
      | succ k1 =>
        have hstep := sync_step_complete f fr q.1 q.2 (completedQueue qr) cap tmp
        simp only [completedQueue, List.map_cons] at hstep ⊢
        simp only [runSync, hstep]
        have hlen1 : fr.length = qr.length := by simpa using hlen
        have hk1 : qr.length ≤ k1 := by simp at hk; omega
        have hr := ih qr k1 hlen1 hk1
        simp only [completedQueue] at hr
        simp [expectedSamples] at hr ⊢
        exact hr

/-- Claim C1: with N frames queued FIFO and N completed trigger pairs
enqueued FIFO, any number k ≥ N of synchronization iterations emits
exactly N samples, the i-th carrying the i-th frame (image and index)
with the i-th trigger pair's start/end timestamps, in order. -/
theorem sync_fifo_pairing (frames : List ImageWithIndex)
    (pairs : List (TriggerSignal × TriggerSignal)) (cap k : Nat)
    (hlen : frames.length = pairs.length) (hk : pairs.length ≤ k) :
    (runSync k frames ⟨completedQueue pairs, cap, ⟨none, none⟩⟩).1 =
      expectedSamples frames pairs ∧
    (runSync k frames ⟨completedQueue pairs, cap, ⟨none, none⟩⟩).1.length =
      frames.length := by
  have h := runSync_complete_eq frames pairs cap k ⟨none, none⟩ hlen hk
  refine ⟨h, ?_⟩
  rw [h]
  simp [expectedSamples, hlen]

/-- Claim C1 witness: two frames, two completed pairs, three iterations. -/
theorem sync_fifo_pairing_witness :
    ([(⟨7, 0⟩ : ImageWithIndex), ⟨8, 1⟩]).length =
      ([((⟨1, 0, 100⟩ : TriggerSignal), (⟨1, 1, 200⟩ : TriggerSignal)),
        (⟨1, 0, 300⟩, ⟨1, 1, 400⟩)]).length ∧
    ([((⟨1, 0, 100⟩ : TriggerSignal), (⟨1, 1, 200⟩ : TriggerSignal)),
        (⟨1, 0, 300⟩, ⟨1, 1, 400⟩)]).length ≤ 3 ∧
    (runSync 3 [⟨7, 0⟩, ⟨8, 1⟩]
        ⟨completedQueue [(⟨1, 0, 100⟩, ⟨1, 1, 200⟩), (⟨1, 0, 300⟩, ⟨1, 1, 400⟩)], 100,
          ⟨none, none⟩⟩).1 =
      expectedSamples [⟨7, 0⟩, ⟨8, 1⟩]
        [(⟨1, 0, 100⟩, ⟨1, 1, 200⟩), (⟨1, 0, 300⟩, ⟨1, 1, 400⟩)] := by
  have h := sync_fifo_pairing [⟨7, 0⟩, ⟨8, 1⟩]
    [(⟨1, 0, 100⟩, ⟨1, 1, 200⟩), (⟨1, 0, 300⟩, ⟨1, 1, 400⟩)] 100 3 (by decide) (by decide)
  exact ⟨by decide, by decide, h.1⟩

/-- Is this buffer in non-decreasing timestamp order?  The precondition
of std::upper_bound on the event accumulator, which the code maintains by
appending driver batches in (≈monotonic) arrival order. -/
def sortedByTs : List Event2D → Bool
  | [] => true
  | [_] => true
  | a :: b :: t => decide (a.timestamp ≤ b.timestamp) && sortedByTs (b :: t)

/-- Membership of the half-open attribution window (e1, e2]. -/
def inWindow (e1 e2 : Nat) (x : Event2D) : Bool :=
  decide (e1 < x.timestamp) && decide (x.timestamp ≤ e2)

theorem sortedByTs_tail (a : Event2D) (l : List Event2D)
    (h : sortedByTs (a :: l) = true) : sortedByTs l = true := by
  cases l with
  | nil => rfl
  | cons b t =>
    simp only [sortedByTs, Bool.and_eq_true] at h
    exact h.2

theorem sortedByTs_head_le (a : Event2D) (l : List Event2D)
    (h : sortedByTs (a :: l) = true) :
    ∀ x ∈ l, a.timestamp ≤ x.timestamp := by
  induction l generalizing a with
  | nil => intro x hx; simp at hx
  | cons b t ih =>
    simp only [sortedByTs, Bool.and_eq_true, decide_eq_true_eq] at h
    intro x hx
    rcases List.mem_cons.mp hx with hx | hx
    · subst hx; exact h.1
    · exact le_trans h.1 (ih b h.2 x hx)

theorem sortedByTs_dropWhile_gt (e : Nat) (l : List Event2D)
    (h : sortedByTs l = true) :
    ∀ x ∈ l.dropWhile (fun v => v.timestamp ≤ e), e < x.timestamp := by
  induction l with
  | nil => intro x hx; simp at hx
  | cons a t ih =>
    intro x hx
    by_cases ha : a.timestamp ≤ e
    · rw [List.dropWhile_cons_of_pos (by simpa using ha)] at hx
      exact ih (sortedByTs_tail a t h) x hx
    · rw [List.dropWhile_cons_of_neg (by simpa using ha)] at hx
      rcases List.mem_cons.mp hx with hx | hx
      · subst hx; omega
      · have := sortedByTs_head_le a t h x hx
        omega

theorem sortedByTs_takeWhile_eq_filter (e : Nat) (l : List Event2D)
    (h : sortedByTs l = true) :
    l.takeWhile (fun v => v.timestamp ≤ e) = l.filter (fun v => v.timestamp ≤ e) := by
  induction l with
  | nil => rfl
  | cons a t ih =>
    by_cases ha : a.timestamp ≤ e
    · rw [List.takeWhile_cons_of_pos (by simpa using ha),
        List.filter_cons_of_pos (by simpa using ha), ih (sortedByTs_tail a t h)]
    · rw [List.takeWhile_cons_of_neg (by simpa using ha),
        List.filter_cons_of_neg (by simpa using ha)]
      symm
      rw [List.filter_eq_nil_iff]
      intro x hx
      have := sortedByTs_head_le a t h x hx
      simp
      omega

theorem mem_takeWhile_le (e : Nat) (l : List Event2D) (x : Event2D)
    (hx : x ∈ l.takeWhile (fun v => v.timestamp ≤ e)) : x.timestamp ≤ e := by
  have := List.mem_takeWhile_imp hx
  simpa using this

theorem mem_of_mem_takeWhileTs (p : Event2D → Bool) (l : List Event2D) (x : Event2D)
    (hx : x ∈ l.takeWhile p) : x ∈ l := by
  have h := List.takeWhile_append_dropWhile (p := p) (l := l)
  rw [← h]
  exact List.mem_append.mpr (Or.inl hx)

/-- Claim C2: for two consecutive extractions at exposure ends e1 < e2,
where the accumulator between them loses its consumed prefix and gains
only later arrivals (timestamps above e1, buffer kept sorted), the two
slices are disjoint, every event of the second slice lies in (e1, e2],
the second slice is exactly the events of the accumulator in (e1, e2] at
extraction time (none duplicated or dropped), and each extraction removes
a contiguous prefix of the accumulator bounded by its end timestamp. -/
theorem event_partition (e1 e2 : Nat) (buf1 arrivals buf2 : List Event2D)
    (s1 r1 s2 r2 : List Event2D)
    (hs1 : extractEvents e1 buf1 = (s1, r1))
    (hbuf2 : buf2 = r1 ++ arrivals)
    (hs2 : extractEvents e2 buf2 = (s2, r2))
    (hsort1 : sortedByTs buf1 = true)
    (hsort2 : sortedByTs buf2 = true)
    (_h12 : e1 < e2)
    (harr : ∀ a ∈ arrivals, e1 < a.timestamp) :
    (∀ x ∈ s1, x.timestamp ≤ e1) ∧
    (∀ x ∈ s2, e1 < x.timestamp ∧ x.timestamp ≤ e2) ∧
    (∀ x, x ∈ s1 → x ∈ s2 → False) ∧
    s2 = buf2.filter (inWindow e1 e2) ∧
    s1 ++ r1 = buf1 ∧
    s2 ++ r2 = buf2 := by
  injection hs1 with hs1a hs1b
  injection hs2 with hs2a hs2b
  subst hs1a hs1b hs2a hs2b hbuf2
  have hbuf2_gt : ∀ x ∈ (buf1.dropWhile (fun v => v.timestamp ≤ e1)) ++ arrivals,
      e1 < x.timestamp := by
    intro x hx
    rcases List.mem_append.mp hx with hx | hx
    · exact sortedByTs_dropWhile_gt e1 buf1 hsort1 x hx
    · exact harr x hx
  have hs1_le : ∀ x ∈ buf1.takeWhile (fun v => v.timestamp ≤ e1), x.timestamp ≤ e1 :=
    fun x hx => mem_takeWhile_le e1 buf1 x hx
  have hs2_mem : ∀ x ∈ (buf1.dropWhile (fun v => v.timestamp ≤ e1) ++
      arrivals).takeWhile (fun v => v.timestamp ≤ e2),
      e1 < x.timestamp ∧ x.timestamp ≤ e2 := by
    intro x hx
    refine ⟨?_, mem_takeWhile_le e2 _ x hx⟩
    exact hbuf2_gt x (mem_of_mem_takeWhileTs _ _ x hx)
  refine ⟨hs1_le, hs2_mem, ?_, ?_, List.takeWhile_append_dropWhile (p := _) (l := _),
    List.takeWhile_append_dropWhile (p := _) (l := _)⟩
  · intro x hx1 hx2
    have h1 := hs1_le x hx1
    have h2 := (hs2_mem x hx2).1
    omega
  · rw [sortedByTs_takeWhile_eq_filter e2 _ hsort2]
    refine List.filter_congr ?_
    intro x hx
    have := hbuf2_gt x hx
    simp [inWindow]
    omega

/-- Claim C2 witness: e1 = 100, e2 = 200, accumulator (50, 150, 250), one
later arrival at 260. -/
theorem event_partition_witness :
    extractEvents 100 [⟨0, 0, 0, 50⟩, ⟨0, 0, 0, 150⟩, ⟨0, 0, 0, 250⟩] =
      ([⟨0, 0, 0, 50⟩], [⟨0, 0, 0, 150⟩, ⟨0, 0, 0, 250⟩]) ∧
    ([⟨0, 0, 0, 150⟩, ⟨0, 0, 0, 250⟩, ⟨0, 0, 0, 260⟩] : List Event2D) =
      [⟨0, 0, 0, 150⟩, ⟨0, 0, 0, 250⟩] ++ [⟨0, 0, 0, 260⟩] ∧
    extractEvents 200 [⟨0, 0, 0, 150⟩, ⟨0, 0, 0, 250⟩, ⟨0, 0, 0, 260⟩] =
      ([⟨0, 0, 0, 150⟩], [⟨0, 0, 0, 250⟩, ⟨0, 0, 0, 260⟩]) ∧
    sortedByTs [⟨0, 0, 0, 50⟩, ⟨0, 0, 0, 150⟩, ⟨0, 0, 0, 250⟩] = true ∧
    sortedByTs [⟨0, 0, 0, 150⟩, ⟨0, 0, 0, 250⟩, ⟨0, 0, 0, 260⟩] = true ∧
    (100 : Nat) < 200 ∧
    (∀ a ∈ ([⟨0, 0, 0, 260⟩] : List Event2D), 100 < a.timestamp) ∧
    ([⟨0, 0, 0, 150⟩] : List Event2D) =
      ([⟨0, 0, 0, 150⟩, ⟨0, 0, 0, 250⟩, ⟨0, 0, 0, 260⟩] : List Event2D).filter
        (inWindow 100 200) ∧
    (∀ x, x ∈ ([⟨0, 0, 0, 50⟩] : List Event2D) →
      x ∈ ([⟨0, 0, 0, 150⟩] : List Event2D) → False) := by
  have h := event_partition 100 200 [⟨0, 0, 0, 50⟩, ⟨0, 0, 0, 150⟩, ⟨0, 0, 0, 250⟩]
    [⟨0, 0, 0, 260⟩] [⟨0, 0, 0, 150⟩, ⟨0, 0, 0, 250⟩, ⟨0, 0, 0, 260⟩]
    [⟨0, 0, 0, 50⟩] [⟨0, 0, 0, 150⟩, ⟨0, 0, 0, 250⟩]
    [⟨0, 0, 0, 150⟩] [⟨0, 0, 0, 250⟩, ⟨0, 0, 0, 260⟩]
    (by decide) (by decide) (by decide) (by decide) (by decide) (by decide) (by decide)
  exact ⟨by decide, by decide, by decide, by decide, by decide, by decide, by decide,
    h.2.2.2.1, h.2.2.1⟩

end Evrgb
